import Mathlib

/-!
Verification of the NNI HPO tutorial notebooks (`nni_tuto`): the trial
script (`model.py` notebook) and the experiment notebook (`main.ipynb`).

The trial notebook's own logic (default hyperparameters, `params.update`,
the train/test/report loop, the `test` accuracy computation) is embedded
directly from the source.  The NNI library that the notebooks call into
(`nni.get_next_parameter`, `nni.report_intermediate_result`,
`nni.report_final_result`, the experiment coordinator) is not part of the
repository's sources, so those operations are modelled from the
specification's description of the trial-reporting protocol and the
coordinator lifecycle.

Python floats are embedded as rationals (`ℚ`); Python dicts as their
lookup functions `String → Option ℚ`.
-/

namespace NNITuto

/-- Error kinds of the protocol, from the specification's error-handling
design: `InvalidSearchSpace` (citing the offending parameter name),
`PortBindFailure`, `DuplicateFinalReport`, `MissingFinalReport`. -/
inductive NNIError where
  | invalidSearchSpace (param : String)
  | portBindFailure
  | duplicateFinalReport
  | missingFinalReport
  deriving Repr, DecidableEq

/-- A Python dict with string keys and numeric values, embedded as its
lookup function. -/
abbrev Dict : Type := String → Option ℚ

/-- The empty mapping. -/
def emptyDict : Dict := fun _ => none

/-- `Assignment`: mapping from parameter name to a concrete value,
produced by the coordinator, consumed read-only by a trial. -/
abbrev Assignment : Type := Dict

/-- Python `d.update(u)`: the resulting dict maps every key present in
`u` to `u`'s value and every other key to `d`'s value. -/
def dictUpdate (d u : Dict) : Dict := fun k =>
  match u k with
  | some v => some v
  | none => d k

/-- The trial script's default hyperparameters, from the source:
`params = {'features': 512, 'lr': 0.001, 'momentum': 0}`. -/
def params : Dict := fun k =>
  if k = "features" then some 512
  else if k = "lr" then some (1 / 1000)
  else if k = "momentum" then some 0
  else none

/-- Execution context of a trial process: standalone (run directly,
no coordinated experiment) or coordinated with a delivered assignment. -/
inductive Platform where
  | standalone
  | coordinated (assignment : Assignment)

/-- Modelled from the spec: `nni.get_next_parameter` (the library function
called by the trial script; its implementation is not in this repository).
Outside a coordinated run it "returns an empty mapping (standalone/no-op
mode) rather than failing"; inside a coordinated run it returns the
assignment the coordinator delivered.  Totality of the function and the
`Except.ok` result model "never blocks, never raises". -/
def get_next_parameter : Platform → Except NNIError Assignment
  | .standalone => .ok emptyDict
  | .coordinated a => .ok a

/-- `TrialReport`: an ordered sequence of intermediate scalar metrics
terminated by at most one final scalar metric (`none` until sealed). -/
structure TrialReport where
  intermediates : List ℚ
  final : Option ℚ
  deriving Repr, DecidableEq

/-- A trial's report is "created empty when a trial starts". -/
def TrialReport.empty : TrialReport := ⟨[], none⟩

/-- Modelled from the spec: `nni.report_intermediate_result` (library
function, not in this repository).  "Appends to the current trial's
TrialReport"; the report is "sealed by the final report call; immutable
thereafter", so an append on a sealed report has no effect. -/
def report_intermediate_result (v : ℚ) (s : TrialReport) : TrialReport :=
  if s.final.isSome then s
  else { s with intermediates := s.intermediates ++ [v] }

/-- Modelled from the spec: `nni.report_final_result` (library function,
not in this repository).  "Seals the TrialReport with exactly one final
value; must be called at most once per trial; calling it more than once
is an error (`DuplicateFinalReport`)". -/
def report_final_result (v : ℚ) (s : TrialReport) : Except NNIError TrialReport :=
  if s.final.isSome then .error .duplicateFinalReport
  else .ok { s with final := some v }

/-- A trial run that makes the `report_intermediate_result` calls for the
values `vs` in order, then one `report_final_result` call with `f`,
starting from the empty report. -/
def runTrial (vs : List ℚ) (f : ℚ) : Except NNIError TrialReport :=
  report_final_result f (vs.foldl (fun s v => report_intermediate_result v s) .empty)

/-- Number of training epochs in the trial script: `epochs = 5`. -/
def epochs : ℕ := 5

/-- The trial script's training loop, from the source:
for each `t` in `range(epochs)` it trains, computes
`accuracy = test(test_dataloader, model, loss_fn)` and calls
`nni.report_intermediate_result(accuracy)`; after the loop it calls
`nni.report_final_result(accuracy)` with the variable still holding the
last epoch's accuracy.  `acc t` abstracts the accuracy the `test` call
returns at epoch `t`; the `Option` tracks the Python variable `accuracy`,
unbound before the first iteration. -/
def trialScript (acc : ℕ → ℚ) : Option (Except NNIError TrialReport) :=
  let p := (List.range epochs).foldl
    (fun (p : TrialReport × Option ℚ) t =>
      let a := acc t
      (report_intermediate_result a p.1, some a))
    (.empty, none)
  p.2.map (fun a => report_final_result a p.1)

/-- A `Dimension` of the search space, from the data model: a tagged
variant `Choice` / `Uniform(low, high)` / `LogUniform(low, high)`.
Choice values are the opaque values of the notebook's search space,
embedded as rationals. -/
inductive Dimension where
  | choice (values : List ℚ)
  | uniform (low high : ℚ)
  | loguniform (low high : ℚ)
  deriving Repr, DecidableEq

/-- Well-formedness of one dimension: `Choice` has at least one value;
`Uniform`/`LogUniform` satisfy `low < high`, and `LogUniform`
additionally requires `low > 0`. -/
def Dimension.wellFormed : Dimension → Bool
  | .choice values => !values.isEmpty
  | .uniform low high => low < high
  | .loguniform low high => 0 < low && low < high

/-- `SearchSpaceSpec`: mapping from parameter name to a `Dimension`,
embedded as an association list. -/
abbrev SearchSpaceSpec : Type := List (String × Dimension)

/-- A search space is well-formed when every dimension is. -/
def SearchSpaceSpec.wellFormed (ss : SearchSpaceSpec) : Bool :=
  ss.all (fun p => p.2.wellFormed)

/-- Modelled from the spec: search-space validation (performed by the
experiment library, not in this repository).  "Validate that every
Dimension's parameters are well-formed ...  Fails with
`InvalidSearchSpace` citing the offending parameter name." -/
def validateSearchSpace (ss : SearchSpaceSpec) : Except NNIError Unit :=
  match ss.find? (fun p => !p.2.wellFormed) with
  | some p => .error (.invalidSearchSpace p.1)
  | none => .ok ()

/-- The example search space of the experiment notebook, from the source:
`{'features': choice([128, 256, 512, 1024]), 'lr': loguniform(0.0001, 0.1),
'momentum': uniform(0, 1)}`. -/
def search_space : SearchSpaceSpec :=
  [("features", .choice [128, 256, 512, 1024]),
   ("lr", .loguniform (1 / 10000) (1 / 10)),
   ("momentum", .uniform 0 1)]

/-- Experiment configuration, from the experiment notebook's
`experiment.config` fields that bear on the verified claims. -/
structure ExperimentConfig where
  searchSpace : SearchSpaceSpec
  maxTrialNumber : Option ℕ
  trialConcurrency : ℕ
  deriving Repr, DecidableEq

/-- The configuration of the example experiment, from the source:
`max_trial_number = 10`, `trial_concurrency = 2`. -/
def exampleConfig : ExperimentConfig :=
  { searchSpace := search_space
    maxTrialNumber := some 10
    trialConcurrency := 2 }

/-- Lifecycle status of an experiment:
`Created -> Running -> Stopped`, with an optional `Viewing` state
reachable from `Stopped`. -/
inductive ExpStatus where
  | created
  | running
  | stopped
  | viewing
  deriving Repr, DecidableEq

/-- Coordinator state: lifecycle status, the concurrency-accounting
state the coordinator owns exclusively (in-flight trial count, total
trials dispatched, total trials completed), and whether the web server
port is held. -/
structure ExpState where
  status : ExpStatus
  inFlight : ℕ
  dispatched : ℕ
  completed : ℕ
  portBound : Bool
  deriving Repr, DecidableEq

/-- A freshly constructed experiment. -/
def ExpState.init : ExpState :=
  { status := .created, inFlight := 0, dispatched := 0, completed := 0,
    portBound := false }

/-- Modelled from the spec: `experiment.stop()` (library operation, not
in this repository).  From `Running` it terminates all in-flight trial
processes and releases the web server port; "stopping a non-running
experiment is a no-op, not an error". -/
def ExpState.stop (s : ExpState) : ExpState :=
  if s.status = .running then
    { s with status := .stopped, inFlight := 0, portBound := false }
  else s

/-- Modelled from the spec: one step of the coordinator's dispatch loop
(the coordinator is a library component, not in this repository).
`run` starts the experiment (binds the port); `dispatch` launches a
trial only while fewer than `trial_concurrency` are in flight and, when
`max_trial_number = N` is configured, fewer than `N` have been
dispatched; `finish` records a trial's completion; `complete` ends the
experiment once `max_trial_number` trials have completed; `stop` is the
explicit stop operation. -/
inductive Step (c : ExperimentConfig) : ExpState → ExpState → Prop where
  | run (s : ExpState) :
      s.status = .created →
      Step c s { s with status := .running, portBound := true }
  | dispatch (s : ExpState) :
      s.status = .running →
      s.inFlight < c.trialConcurrency →
      (∀ N, c.maxTrialNumber = some N → s.dispatched < N) →
      Step c s { s with inFlight := s.inFlight + 1, dispatched := s.dispatched + 1 }
  | finish (s : ExpState) :
      s.status = .running →
      0 < s.inFlight →
      Step c s { s with inFlight := s.inFlight - 1, completed := s.completed + 1 }
  | complete (s : ExpState) (N : ℕ) :
      s.status = .running →
      c.maxTrialNumber = some N →
      s.completed = N →
      s.inFlight = 0 →
      Step c s { s with status := .stopped, portBound := false }
  | stop (s : ExpState) :
      Step c s s.stop

/-- States of the coordinator reachable from the freshly constructed
experiment by dispatch-loop steps. -/
inductive Reachable (c : ExperimentConfig) : ExpState → Prop where
  | init : Reachable c .init
  | step {s s' : ExpState} : Reachable c s → Step c s s' → Reachable c s'

/-- First index of the maximal element of a list of scores, embedding
`pred.argmax(1)` for one sample's prediction vector (`torch.argmax`
returns the first occurrence of the maximum). -/
def argmax (l : List ℚ) : ℕ :=
  (l.foldl
    (fun (p : ℕ × Option (ℕ × ℚ)) x =>
      match p.2 with
      | none => (p.1 + 1, some (p.1, x))
      | some (bi, bx) =>
          if bx < x then (p.1 + 1, some (p.1, x))
          else (p.1 + 1, some (bi, bx)))
    (0, none)).2.elim 0 Prod.fst

/-- One batch's correct-prediction count, from the source's
`correct += (pred.argmax(1) == y).type(torch.float).sum().item()`:
the number of samples in the batch whose predicted class (argmax of the
model output) equals the true label.  `model` abstracts the trained
network's per-sample output vector. -/
def batchCorrect (model : α → List ℚ) (batch : List (α × ℕ)) : ℕ :=
  batch.foldl (fun c s => if argmax (model s.1) = s.2 then c + 1 else c) 0

/-- The `test` function of the trial script, from the source: iterate
over the dataloader's batches accumulating `correct`, then
`correct /= size` where `size = len(dataloader.dataset)` is the total
number of samples; the function returns `correct`. -/
def test (model : α → List ℚ) (batches : List (List (α × ℕ))) : ℚ :=
  let size := batches.flatten.length
  let correct := batches.foldl (fun c b => c + batchCorrect model b) 0
  (correct : ℚ) / (size : ℚ)

/-! ### Helper lemmas -/

lemma foldl_report_intermediate (vs l : List ℚ) :
    vs.foldl (fun s v => report_intermediate_result v s) ⟨l, none⟩ =
      ⟨l ++ vs, none⟩ := by
  induction vs generalizing l with
  | nil => simp
  | cons v vs ih =>
      have h1 : report_intermediate_result v ⟨l, none⟩ = ⟨l ++ [v], none⟩ := rfl
      rw [List.foldl_cons, h1, ih]
      simp

/-! ### Claims -/

/-- C1: for any sequence of `report_intermediate_result` calls followed by
one `report_final_result` call, the delivered `TrialReport` holds exactly
that sequence of intermediate values in call order, terminated by exactly
that one final value; the trial script instantiates this with one
intermediate report per epoch (5 epochs) followed by one final report. -/
theorem final_claim_C1 :
    (∀ (vs : List ℚ) (f : ℚ), runTrial vs f = .ok ⟨vs, some f⟩) ∧
    (∀ acc : ℕ → ℚ,
      trialScript acc = some (runTrial [acc 0, acc 1, acc 2, acc 3, acc 4] (acc 4))) := by
  constructor
  · intro vs f
    show report_final_result f _ = _
    rw [show TrialReport.empty = ⟨[], none⟩ from rfl, foldl_report_intermediate]
    simp [report_final_result]
  · intro acc
    rfl

/-- C2: `nni.get_next_parameter` invoked outside a coordinated experiment
returns the empty mapping without raising, and updating the default
hyperparameters with that empty mapping leaves the built-in defaults
untouched, so the trial script runs standalone. -/
theorem final_claim_C2 :
    get_next_parameter .standalone = .ok emptyDict ∧
    dictUpdate params emptyDict = params := by
  refine ⟨rfl, funext fun k => ?_⟩
  rfl

/-- C4: on an unsealed report, `report_final_result` seals it with the
given value, and a second `report_final_result` call fails with
`DuplicateFinalReport`, producing no new report state, so the sealed
value is unchanged. -/
theorem final_claim_C4 : ∀ (s : TrialReport) (v w : ℚ), s.final = none →
    report_final_result v s = .ok { s with final := some v } ∧
    report_final_result w { s with final := some v } =
      .error .duplicateFinalReport := by
  intro s v w h
  constructor
  · simp [report_final_result, h]
  · simp [report_final_result]

/-- Witness for C4 at a concrete report: sealing the empty report with
9/10 succeeds, and a second final report of 1/2 is rejected. -/
theorem final_claim_C4_witness :
    report_final_result (9 / 10) TrialReport.empty = .ok ⟨[], some (9 / 10)⟩ ∧
    report_final_result (1 / 2) ⟨[], some (9 / 10)⟩ = .error .duplicateFinalReport :=
  final_claim_C4 TrialReport.empty (9 / 10) (1 / 2) rfl

/-- C8: after `params.update(assignment)`, every key present in the
assignment maps to the assignment value, every absent key retains its
default, the empty standalone assignment leaves `params` exactly the
default mapping, and the defaults are features = 512, lr = 0.001,
momentum = 0. -/
theorem final_claim_C8 :
    (∀ (u : Assignment) (k : String) (v : ℚ),
      u k = some v → dictUpdate params u k = some v) ∧
    (∀ (u : Assignment) (k : String),
      u k = none → dictUpdate params u k = params k) ∧
    dictUpdate params emptyDict = params ∧
    params "features" = some 512 ∧
    params "lr" = some (1 / 1000) ∧
    params "momentum" = some 0 := by
  refine ⟨?_, ?_, funext fun k => rfl, rfl, rfl, rfl⟩
  · intro u k v h
    simp [dictUpdate, h]
  · intro u k h
    simp [dictUpdate, h]

/-- Witness for C8 at a concrete assignment that sets only lr to 1/100:
lr takes the assigned value and features keeps its default 512. -/
theorem final_claim_C8_witness :
    dictUpdate params (fun k => if k = "lr" then some (1 / 100) else none) "lr" =
      some (1 / 100) ∧
    dictUpdate params (fun k => if k = "lr" then some (1 / 100) else none) "features" =
      some 512 :=
  ⟨final_claim_C8.1 _ "lr" (1 / 100) rfl,
   (final_claim_C8.2.1 _ "features" rfl).trans final_claim_C8.2.2.2.1⟩

/-- C9: in every run of the trial script, the value reported as final is
the accuracy of the last (fifth) epoch, which is also the last
intermediate value reported. -/
theorem final_claim_C9 : ∀ acc : ℕ → ℚ,
    trialScript acc =
      some (.ok ⟨[acc 0, acc 1, acc 2, acc 3, acc 4], some (acc 4)⟩) ∧
    ([acc 0, acc 1, acc 2, acc 3, acc 4].getLast? : Option ℚ) = some (acc 4) := by
  intro acc
  exact ⟨rfl, rfl⟩

/-- C3: search-space validation succeeds exactly on well-formed search
spaces; every failure is an `InvalidSearchSpace` naming a parameter whose
dimension is malformed; every malformed search space is rejected; and
the example search space of the notebook validates successfully. -/
theorem final_claim_C3 :
    (∀ ss : SearchSpaceSpec,
      validateSearchSpace ss = .ok () ↔ ss.wellFormed = true) ∧
    (∀ (ss : SearchSpaceSpec) (n : String),
      validateSearchSpace ss = .error (.invalidSearchSpace n) →
      ∃ d : Dimension, (n, d) ∈ ss ∧ d.wellFormed = false) ∧
    (∀ ss : SearchSpaceSpec,
      ss.wellFormed = false → (validateSearchSpace ss).isOk = false) ∧
    validateSearchSpace search_space = .ok () := by
  have hok : ∀ ss : SearchSpaceSpec,
      validateSearchSpace ss = .ok () ↔ ss.wellFormed = true := by
    intro ss
    unfold validateSearchSpace
    cases h : ss.find? (fun p => !p.2.wellFormed) with
    | none =>
        have hall := List.find?_eq_none.mp h
        have hwf : ss.wellFormed = true :=
          List.all_eq_true.mpr fun p hp => by simpa using hall p hp
        simp [hwf]
    | some p =>
        have hp := List.find?_some h
        have hmem := List.mem_of_find?_eq_some h
        constructor
        · intro hcontra; cases hcontra
        · intro hwf
          have := List.all_eq_true.mp hwf p hmem
          simp [this] at hp
  refine ⟨hok, ?_, ?_, ?_⟩
  · intro ss n herr
    unfold validateSearchSpace at herr
    cases h : ss.find? (fun p => !p.2.wellFormed) with
    | none => rw [h] at herr; cases herr
    | some p =>
        rw [h] at herr
        have hp := List.find?_some h
        have hmem := List.mem_of_find?_eq_some h
        have hn : p.1 = n := by
          cases herr
          rfl
        refine ⟨p.2, ?_, ?_⟩
        · rw [← hn]; exact hmem
        · simpa using hp
  · intro ss hbad
    cases hv : validateSearchSpace ss with
    | ok u =>
        cases u
        rw [(hok ss).mp hv] at hbad
        cases hbad
    | error e => rfl
  · refine (hok search_space).mpr ?_
    norm_num [search_space, SearchSpaceSpec.wellFormed, Dimension.wellFormed]

/-- Witness for C3 at concrete search spaces: a LogUniform dimension
with zero lower bound is rejected, while the example space validates. -/
theorem final_claim_C3_witness :
    (validateSearchSpace [("lr", Dimension.loguniform 0 (1 / 10))]).isOk = false ∧
    validateSearchSpace search_space = .ok () :=
  ⟨final_claim_C3.2.2.1 [("lr", Dimension.loguniform 0 (1 / 10))] (by decide),
   final_claim_C3.2.2.2⟩

/-- The inductive invariant of the coordinator dispatch loop: in-flight
trials stay within the concurrency limit, dispatches stay within
`max_trial_number` when configured, completed plus in-flight trials never
exceed dispatched trials, and non-running experiments have no in-flight
trials. -/
def Inv (c : ExperimentConfig) (s : ExpState) : Prop :=
  s.inFlight ≤ c.trialConcurrency ∧
  (∀ N, c.maxTrialNumber = some N → s.dispatched ≤ N) ∧
  s.completed + s.inFlight ≤ s.dispatched ∧
  (s.status ≠ .running → s.inFlight = 0)

lemma inv_init (c : ExperimentConfig) : Inv c .init := by
  refine ⟨?_, ?_, ?_, ?_⟩ <;> simp [ExpState.init]

lemma inv_step {c : ExperimentConfig} {s s' : ExpState}
    (hinv : Inv c s) (hstep : Step c s s') : Inv c s' := by
  obtain ⟨h1, h2, h3, h4⟩ := hinv
  cases hstep with
  | run hs =>
      exact ⟨h1, h2, h3, fun hns => absurd rfl hns⟩
  | dispatch hs hc hd =>
      refine ⟨hc, fun N hN => hd N hN, ?_, fun hns => absurd hs hns⟩
      show s.completed + (s.inFlight + 1) ≤ s.dispatched + 1
      omega
  | finish hs hpos =>
      refine ⟨?_, h2, ?_, fun hns => absurd hs hns⟩
      · show s.inFlight - 1 ≤ c.trialConcurrency
        omega
      · show s.completed + 1 + (s.inFlight - 1) ≤ s.dispatched
        omega
  | complete N hs hN hdone hfl =>
      exact ⟨by show s.inFlight ≤ _; exact h1, h2, h3, fun _ => hfl⟩
  | stop =>
      by_cases hr : s.status = .running
      · have hs : s.stop =
            { s with status := .stopped, inFlight := 0, portBound := false } := by
          simp [ExpState.stop, hr]
        rw [hs]
        refine ⟨Nat.zero_le _, h2, ?_, fun _ => rfl⟩
        show s.completed + 0 ≤ s.dispatched
        omega
      · have hsame : s.stop = s := by simp [ExpState.stop, hr]
        rw [hsame]
        exact ⟨h1, h2, h3, h4⟩

lemma reachable_inv {c : ExperimentConfig} {s : ExpState}
    (h : Reachable c s) : Inv c s := by
  induction h with
  | init => exact inv_init c
  | step _ hstep ih => exact inv_step ih hstep

/-- C5: in every reachable state of the coordinator dispatch loop, the
number of in-flight trials is at most the configured
`trial_concurrency`. -/
theorem final_claim_C5 :
    ∀ (c : ExperimentConfig) (s : ExpState),
      Reachable c s → s.inFlight ≤ c.trialConcurrency :=
  fun _ _ h => (reachable_inv h).1

/-- Witness for C5 at the example configuration (concurrency 2), in the
state reached by starting the experiment and dispatching one trial. -/
theorem final_claim_C5_witness :
    (⟨.running, 1, 1, 0, true⟩ : ExpState).inFlight ≤
      exampleConfig.trialConcurrency :=
  final_claim_C5 exampleConfig ⟨.running, 1, 1, 0, true⟩
    (Reachable.step
      (Reachable.step Reachable.init (Step.run _ rfl))
      (Step.dispatch ⟨.running, 0, 0, 0, true⟩ rfl (by decide)
        (fun N hN => by
          cases hN
          decide)))

/-- C6: with `max_trial_number = N` configured, every reachable state has
dispatched at most N trials (hence at most N over the whole lifetime),
and once N trials have completed with none in flight the running
experiment takes the completion step to `Stopped`, releasing the port. -/
theorem final_claim_C6 :
    (∀ (c : ExperimentConfig) (N : ℕ) (s : ExpState),
      c.maxTrialNumber = some N → Reachable c s → s.dispatched ≤ N) ∧
    (∀ (c : ExperimentConfig) (N : ℕ) (s : ExpState),
      c.maxTrialNumber = some N → s.status = .running → s.completed = N →
      s.inFlight = 0 →
      Step c s { s with status := .stopped, portBound := false }) :=
  ⟨fun _ N _ hN h => (reachable_inv h).2.1 N hN,
   fun _ N _ hN hs hdone hfl => Step.complete _ N hs hN hdone hfl⟩

/-- Witness for C6 at the example configuration (N = 10): the initial
state has dispatched at most 10 trials, and a running state with 10
completed trials and none in flight steps to `Stopped`. -/
theorem final_claim_C6_witness :
    ExpState.init.dispatched ≤ 10 ∧
    Step exampleConfig ⟨.running, 0, 10, 10, true⟩ ⟨.stopped, 0, 10, 10, false⟩ :=
  ⟨final_claim_C6.1 exampleConfig 10 .init rfl Reachable.init,
   final_claim_C6.2 exampleConfig 10 ⟨.running, 0, 10, 10, true⟩ rfl rfl rfl rfl⟩

/-- C7: `stop` is idempotent; on a non-running experiment (never started
or already stopped) it is a no-op leaving the state unchanged; the first
`stop` from `Running` moves to `Stopped`, terminates all in-flight
trials, releases the port, and preserves the trial counters. -/
theorem final_claim_C7 : ∀ s : ExpState,
    s.stop.stop = s.stop ∧
    (s.status ≠ .running → s.stop = s) ∧
    (s.status = .running →
      s.stop.status = .stopped ∧ s.stop.inFlight = 0 ∧ s.stop.portBound = false ∧
      s.stop.dispatched = s.dispatched ∧ s.stop.completed = s.completed) := by
  intro s
  by_cases h : s.status = .running
  · refine ⟨?_, fun hns => absurd h hns, fun _ => ?_⟩
    · simp [ExpState.stop, h]
    · simp [ExpState.stop, h]
  · have hsame : s.stop = s := by simp [ExpState.stop, h]
    exact ⟨by rw [hsame, hsame], fun _ => hsame, fun hr => absurd hr h⟩

/-- Witness for C7 at concrete states: stopping an already stopped
experiment is a no-op, and stopping a running one clears its in-flight
count and port. -/
theorem final_claim_C7_witness :
    (⟨.stopped, 0, 10, 10, false⟩ : ExpState).stop = ⟨.stopped, 0, 10, 10, false⟩ ∧
    (⟨.running, 2, 4, 2, true⟩ : ExpState).stop.inFlight = 0 :=
  ⟨(final_claim_C7 ⟨.stopped, 0, 10, 10, false⟩).2.1 (by decide),
   ((final_claim_C7 ⟨.running, 2, 4, 2, true⟩).2.2 rfl).2.1⟩

lemma batchCorrect_aux (model : α → List ℚ) (b : List (α × ℕ)) (n : ℕ) :
    b.foldl (fun c s => if argmax (model s.1) = s.2 then c + 1 else c) n =
      n + (b.filter (fun s => decide (argmax (model s.1) = s.2))).length := by
  induction b generalizing n with
  | nil => simp
  | cons x xs ih =>
      by_cases h : argmax (model x.1) = x.2
      · simp [List.foldl_cons, List.filter_cons, h, ih]
        omega
      · simp [List.foldl_cons, List.filter_cons, h, ih]

lemma batchCorrect_eq (model : α → List ℚ) (b : List (α × ℕ)) :
    batchCorrect model b =
      (b.filter (fun s => decide (argmax (model s.1) = s.2))).length := by
  simpa using batchCorrect_aux model b 0

lemma testCorrect_aux (model : α → List ℚ) (batches : List (List (α × ℕ))) (n : ℕ) :
    batches.foldl (fun c b => c + batchCorrect model b) n =
      n + (batches.flatten.filter
        (fun s => decide (argmax (model s.1) = s.2))).length := by
  induction batches generalizing n with
  | nil => simp
  | cons b bs ih =>
      rw [List.foldl_cons, ih (n + batchCorrect model b), batchCorrect_eq,
        List.flatten_cons, List.filter_append, List.length_append]
      omega

/-- C10: for every non-empty test dataset, the value `test` returns is
the number of samples whose predicted class (argmax of the model output)
equals the true label, divided by the dataset size, and therefore lies
in the closed interval [0, 1]. -/
theorem final_claim_C10 :
    ∀ {α : Type} (model : α → List ℚ) (batches : List (List (α × ℕ))),
      batches.flatten ≠ [] →
      test model batches =
        ((batches.flatten.filter
            (fun s => decide (argmax (model s.1) = s.2))).length : ℚ) /
          (batches.flatten.length : ℚ) ∧
      0 ≤ test model batches ∧ test model batches ≤ 1 := by
  intro α model batches hne
  have hsize : 0 < batches.flatten.length := List.length_pos.mpr hne
  have hsizeQ : (0 : ℚ) < (batches.flatten.length : ℚ) := by exact_mod_cast hsize
  have heq : test model batches =
      ((batches.flatten.filter
          (fun s => decide (argmax (model s.1) = s.2))).length : ℚ) /
        (batches.flatten.length : ℚ) := by
    unfold test
    rw [testCorrect_aux]
    norm_num
  refine ⟨heq, ?_, ?_⟩
  · rw [heq]
    exact div_nonneg (Nat.cast_nonneg _) (Nat.cast_nonneg _)
  · rw [heq, div_le_one hsizeQ]
    exact_mod_cast List.length_filter_le _ _

/-- Witness for C10 at a one-sample dataset classified correctly: the
accuracy is between 0 and 1. -/
theorem final_claim_C10_witness :
    (0 : ℚ) ≤ test (fun _ : ℕ => [1, 0]) [[(0, 0)]] ∧
    test (fun _ : ℕ => [1, 0]) [[(0, 0)]] ≤ 1 :=
  ⟨(final_claim_C10 (fun _ : ℕ => [1, 0]) [[(0, 0)]] (by decide)).2.1,
   (final_claim_C10 (fun _ : ℕ => [1, 0]) [[(0, 0)]] (by decide)).2.2⟩

end NNITuto
